import Mathlib

/-!
# Verification of `sensor_ssh.py`

A shallow embedding of the SQM sensor protocol layer
(`src/.../python-scripts/ssh/sensor_ssh.py`).  The transport (socket `recv` /
serial `readline`) is modelled as an oracle: a finite list of raw read
outcomes consumed one element per read attempt; an exhausted list stands for
a transport whose further reads raise (time out).  Bytes values are modelled
by their decoded view: either UTF-8-undecodable, or the decoded text.  The
session state carries the shared `self.data` buffer and an event trace
(sends, sleeps, reads, closes, reopens) so that retry/reconnect counting
claims can be stated.
-/

set_option autoImplicit false

namespace SensorSSH

/-- ASCII whitespace, as stripped by Python's `str.strip()`. -/
def pyIsSpace (c : Char) : Bool :=
  c = ' ' || c = '\t' || c = '\n' || c = '\r' || c = '\x0b' || c = '\x0c'

/-- Python's `str.strip()` (no argument): drop leading and trailing
whitespace. -/
def pyStrip (s : String) : String :=
  String.mk (((s.data.dropWhile pyIsSpace).reverse.dropWhile pyIsSpace).reverse)

/-- Decoded view of a `bytes` value produced by a raw transport read:
either the bytes do not decode as UTF-8, or they decode to `s`.
An empty bytes value decodes to `""`; undecodable bytes are necessarily
non-empty (hence truthy in Python). -/
inductive Payload where
  | undecodable : Payload
  | text (s : String) : Payload
deriving DecidableEq, Repr

/-- Outcome of one raw transport read (`self.s.recv(SOCK_BUF)` for SQMLE,
`self.s.readline()` for SQMLU): the call raises, or returns bytes. -/
inductive ReadRes where
  | raised : ReadRes
  | got (p : Payload) : ReadRes
deriving DecidableEq, Repr

/-- The three configured settle-delay durations `long_s`, `mid_s`, `short_s`. -/
inductive Dur where
  | long : Dur
  | mid : Dur
  | short : Dur
deriving DecidableEq, Repr

/-- Observable transport/session operations, recorded in a trace. -/
inductive Event where
  | send (s : String) : Event
  | sleep (d : Dur) : Event
  | read : Event
  | close : Event
  | openConn : Event
deriving DecidableEq, Repr

/-- Session state: the shared `self.data` line buffer and the event trace. -/
structure S where
  data : List String
  trace : List Event
deriving DecidableEq, Repr

/-- One execution of `_read_buffer` (SQMLE lines 228-238 and SQMLU lines
313-323; the two bodies are identical except for the raw read call, whose
outcome is the argument `r`).  Returns the Python function's return value
(`none` for `None`, otherwise the bytes `m`) and the updated state:

* the raw read raises: `m` stays `None`, nothing appended;
* the bytes decode to `""`: early `return` (i.e. `None`), nothing appended;
* the bytes do not decode: the `except` swallows the error and the raw
  bytes are returned, nothing appended;
* the bytes decode to non-empty `s`: `s.strip()` is appended to
  `self.data` and the raw bytes are returned. -/
def readBufferOne (r : ReadRes) (st : S) : Option Payload × S :=
  let st1 : S := { st with trace := st.trace ++ [Event.read] }
  match r with
  | ReadRes.raised => (none, st1)
  | ReadRes.got Payload.undecodable => (some Payload.undecodable, st1)
  | ReadRes.got (Payload.text s) =>
      if s = "" then (none, st1)
      else (some (Payload.text s), { st1 with data := st1.data ++ [pyStrip s] })

/-- `_read_buffer` against the oracle stream: consumes the head outcome;
an exhausted stream reads as a raised (timed-out) call. -/
def readBufferStep (env : List ReadRes) (st : S) :
    Option Payload × List ReadRes × S :=
  match env with
  | [] => ((readBufferOne ReadRes.raised st).1, [], (readBufferOne ReadRes.raised st).2)
  | r :: rest => ((readBufferOne r st).1, rest, (readBufferOne r st).2)

/-- The `while r:` drain loop of `_close_connection` (SQMLE lines 222-225,
SQMLU lines 307-310): repeatedly `r = self._read_buffer()` until `r` is
falsy (`None`; `_read_buffer` never returns empty bytes).  The locally
accumulated `request` string is write-only and not modelled.  The loop
always performs at least one read. -/
def closeLoop : List ReadRes → S → List ReadRes × S
  | [], st => ([], (readBufferOne ReadRes.raised st).2)
  | r :: rest, st =>
      let res := readBufferOne r st
      match res.1 with
      | none => (rest, res.2)
      | some _ => closeLoop rest res.2

/-- `_close_connection` (SQMLE lines 218-226, SQMLU lines 304-311): drain
until a read returns no data, then `self.s.close()` exactly once. -/
def closeConnection (env : List ReadRes) (st : S) : List ReadRes × S :=
  let res := closeLoop env st
  (res.1, { res.2 with trace := res.2.trace ++ [Event.close] })

/-- `SQM._reset_device` (lines 52-56): `_close_connection()`, a short
settle sleep, then `start_connection()` at the already-known address. -/
def resetDevice (env : List ReadRes) (st : S) : List ReadRes × S :=
  let res := closeConnection env st
  (res.1, { res.2 with
      trace := res.2.trace ++ [Event.sleep Dur.short, Event.openConn] })

/-- Result of a `send_and_receive` call: a normal return value, or an
exception propagating to the caller (the debug-mode `raise`). -/
inductive Outcome where
  | ret (m : String) : Outcome
  | exn : Outcome
deriving DecidableEq, Repr

/-- `SQM.send_and_receive` (lines 63-93).  `_send_command(s)`, sleep
`long_s`, one `_read_buffer()`.  If the bytes are present and decode
(necessarily to non-empty text), that text is returned.  Otherwise
(`assert byte_m != None` fails, or `.decode(utf8)` raises): with
`tries <= 0` the error is printed and the call raises when `DEBUG` is set,
else returns `""`; with tries left, sleep `mid_s`, `_reset_device()`,
sleep `mid_s`, and recurse with `tries - 1`, returning the recursive
result (the trailing stderr print is not an observable here).  Python's
`tries: int` with guard `tries <= 0` is modelled by `tries : Nat`. -/
def sendAndReceive (dbg : Bool) (cmd : String) (tries : Nat)
    (env : List ReadRes) (st : S) : Outcome × List ReadRes × S :=
  let st1 : S := { st with trace := st.trace ++ [Event.send cmd, Event.sleep Dur.long] }
  let res := readBufferStep env st1
  match res.1 with
  | some (Payload.text t) => (Outcome.ret t, res.2.1, res.2.2)
  | _ =>
    match tries with
    | 0 =>
        if dbg then (Outcome.exn, res.2.1, res.2.2)
        else (Outcome.ret "", res.2.1, res.2.2)
    | n + 1 =>
        let st3 : S := { res.2.2 with trace := res.2.2.trace ++ [Event.sleep Dur.mid] }
        let res2 := resetDevice res.2.1 st3
        let st5 : S := { res2.2 with trace := res2.2.trace ++ [Event.sleep Dur.mid] }
        sendAndReceive dbg cmd n res2.1 st5

/-- `SQM._return_collected` (lines 114-122): `d = self.data[:]`,
`self.data.clear()`, `return d`. -/
def returnCollected (st : S) : List String × S :=
  (st.data, { st with data := [] })

/-- A raw read outcome that `send_and_receive` treats as success: bytes
that decode to non-empty text. -/
def isGood : ReadRes → Bool
  | ReadRes.got (Payload.text t) => !(t == "")
  | _ => false

/-- A raw read outcome on which the `_close_connection` drain loop stops
(`_read_buffer` returns `None`): a raised read or bytes decoding to `""`. -/
def isStop : ReadRes → Bool
  | ReadRes.raised => true
  | ReadRes.got (Payload.text t) => t == ""
  | ReadRes.got Payload.undecodable => false

def isOpenEvent : Event → Bool
  | Event.openConn => true
  | _ => false

def isCloseEvent : Event → Bool
  | Event.close => true
  | _ => false

/-- Number of `start_connection` events in a trace (= reconnect count,
since within `send_and_receive` every reopen comes from `_reset_device`). -/
def openCount (tr : List Event) : Nat := tr.countP isOpenEvent

/-- Number of `close` events in a trace. -/
def closeCount (tr : List Event) : Nat := tr.countP isCloseEvent

/-- `SQMLU.send_and_receive` (lines 333-363), the override of the base-class
method: transcribed separately.  Its body is line-for-line identical to
`SQM.send_and_receive`; via `self`, its recursive call dispatches back to
this override. -/
def sendAndReceiveLU (dbg : Bool) (cmd : String) (tries : Nat)
    (env : List ReadRes) (st : S) : Outcome × List ReadRes × S :=
  let st1 : S := { st with trace := st.trace ++ [Event.send cmd, Event.sleep Dur.long] }
  let res := readBufferStep env st1
  match res.1 with
  | some (Payload.text t) => (Outcome.ret t, res.2.1, res.2.2)
  | _ =>
    match tries with
    | 0 =>
        if dbg then (Outcome.exn, res.2.1, res.2.2)
        else (Outcome.ret "", res.2.1, res.2.2)
    | n + 1 =>
        let st3 : S := { res.2.2 with trace := res.2.2.trace ++ [Event.sleep Dur.mid] }
        let res2 := resetDevice res.2.1 st3
        let st5 : S := { res2.2 with trace := res2.2.trace ++ [Event.sleep Dur.mid] }
        sendAndReceiveLU dbg cmd n res2.1 st5

/-! ## Network discovery: `SQMLE._search` (lines 170-209) -/

/-- Hex-decoded view of a discovery reply datagram (`buf.decode(hex)`):
either decoding raises, or it yields this character sequence. -/
inductive Datagram where
  | undecodable : Datagram
  | decoded (cs : List Char) : Datagram
deriving DecidableEq, Repr

/-- One iteration's `self.s.recvfrom(30)` outcome.  `elapsedOver3` is the
value `time.time() - starttime > 3` would have if the iteration reaches the
`except` handler's timeout test. -/
inductive RecvOutcome where
  | datagram (buf : Datagram) (src : String) (elapsedOver3 : Bool) : RecvOutcome
  | noData (elapsedOver3 : Bool) : RecvOutcome
deriving DecidableEq, Repr

/-- The test `buf.decode(hex)[3] == "f7"` (line 191): `none` when the decode
or the index raises (undecodable buffer, or fewer than 4 characters),
otherwise the value of the comparison — which pits the single character
`buf.decode(hex)[3]` against the two-character string `"f7"`. -/
def markerCheck : Datagram → Option Bool
  | Datagram.undecodable => none
  | Datagram.decoded cs =>
      if h : 3 < cs.length then
        some (decide (String.mk [cs.get ⟨3, h⟩] = "f7"))
      else none

/-- The epilogue of `_search` (lines 203-209): `assert addr[0] != None`;
on failure the error is printed and re-raised (device not found), else
`str(addr[0])` is returned. -/
def finishSearch : Option String → Except Unit String
  | some a => Except.ok a
  | none => Except.error ()

/-- The reply-collection loop of `SQMLE._search` (lines 185-209), after the
probe broadcast.  `addr` starts as `[None, None]` (modelled `none`).  Each
successful `recvfrom` assigns `addr` (the sender's source address) *before*
the marker test; the marker test's result only gates a stderr print, but if
the test itself raises, the `except` handler runs and may `break` when the
3-second window has elapsed.  A raised `recvfrom` likewise breaks only
after the window.  List exhaustion stands for a raised `recvfrom` after
the window (the loop cannot run forever). -/
def searchLE : List RecvOutcome → Option String → Except Unit String
  | [], addr => finishSearch addr
  | o :: rest, addr =>
    match o with
    | RecvOutcome.noData elapsed =>
        if elapsed then finishSearch addr else searchLE rest addr
    | RecvOutcome.datagram buf src elapsed =>
        match markerCheck buf with
        | some _ => searchLE rest (some src)
        | none =>
            if elapsed then finishSearch (some src) else searchLE rest (some src)

/-- The source address of the last datagram in the list, else the prior
candidate. -/
def lastSrc : List (Datagram × String) → Option String → Option String
  | [], a => a
  | p :: rest, _ => lastSrc rest (some p.2)

/-! ## Serial discovery: `SQMLU._search` (lines 270-298) -/

/-- Outcome of probing one candidate serial port: `serial.Serial(port, ...)`
raises, or the port opens and `readline().decode(utf8)` is modelled by a
`Payload` (undecodable, or the decoded line). -/
inductive ProbeResult where
  | openErr : ProbeResult
  | reply (p : Payload) : ProbeResult
deriving DecidableEq, Repr

/-- Result of the scan: the accepted port; the `assert used_port != None`
raise after exhausting the list (device not found); or an exception
escaping the loop itself (a failed open, an undecodable line, or the `[0]`
index on an empty line — none of these is guarded by a `try`). -/
inductive LUResult where
  | found (port : String) : LUResult
  | notFound : LUResult
  | crashed : LUResult
deriving DecidableEq, Repr

/-- The port scan of `SQMLU._search` (lines 284-298): for each candidate
port, open it, write the probe `"ix"`, read one line; accept the port iff
the line's first character is `'i'` (then `break`, so later ports are never
opened); otherwise move to the next port.  After the loop,
`assert used_port != None` turns exhaustion into a raise. -/
def scanPorts : List (String × ProbeResult) → LUResult
  | [] => LUResult.notFound
  | pr :: rest =>
    match pr.2 with
    | ProbeResult.openErr => LUResult.crashed
    | ProbeResult.reply Payload.undecodable => LUResult.crashed
    | ProbeResult.reply (Payload.text t) =>
      match t.data with
      | [] => LUResult.crashed
      | c :: _ => if c = 'i' then LUResult.found pr.1 else scanPorts rest

/-- Oracle stream in which the first `l.length` command exchanges fail:
each pair contributes the failed command read followed by the single read
consumed by the ensuing reconnect's drain loop. -/
def failEnv (l : List (ReadRes × ReadRes)) : List ReadRes :=
  l.foldr (fun p acc => p.1 :: p.2 :: acc) []

end SensorSSH

/-! ## Helper lemmas -/

namespace SensorSSH

theorem readBufferOne_trace (r : ReadRes) (st : S) :
    (readBufferOne r st).2.trace = st.trace ++ [Event.read] := by
  cases r with
  | raised => rfl
  | got p =>
    cases p with
    | undecodable => rfl
    | text s => by_cases hs : s = "" <;> simp [readBufferOne, hs]

theorem readBufferOne_data_extend (r : ReadRes) (st : S) :
    ∃ l, (readBufferOne r st).2.data = st.data ++ l := by
  cases r with
  | raised => exact ⟨[], by simp [readBufferOne]⟩
  | got p =>
    cases p with
    | undecodable => exact ⟨[], by simp [readBufferOne]⟩
    | text s =>
      by_cases hs : s = ""
      · exact ⟨[], by simp [readBufferOne, hs]⟩
      · exact ⟨[pyStrip s], by simp [readBufferOne, hs]⟩

/-- On a stream of reads none of which yields decodable non-empty bytes,
one `_read_buffer` step never takes the success branch, preserves the
failing-stream property, appends one read event, and leaves the data
buffer unchanged. -/
theorem readBufferStep_not_good (env : List ReadRes) (st : S)
    (h : ∀ r ∈ env, isGood r = false) :
    (∀ t, (readBufferStep env st).1 ≠ some (Payload.text t)) ∧
    (∀ r ∈ (readBufferStep env st).2.1, isGood r = false) ∧
    (readBufferStep env st).2.2.trace = st.trace ++ [Event.read] ∧
    (readBufferStep env st).2.2.data = st.data := by
  cases env with
  | nil => simp [readBufferStep, readBufferOne]
  | cons r rest =>
    have hr : isGood r = false := h r (List.mem_cons_self r rest)
    have hrest : ∀ x ∈ rest, isGood x = false :=
      fun x hx => h x (List.mem_cons_of_mem r hx)
    cases r with
    | raised => simpa [readBufferStep, readBufferOne] using hrest
    | got p =>
      cases p with
      | undecodable => simpa [readBufferStep, readBufferOne] using hrest
      | text s =>
        have hs : s = "" := by
          by_contra hne
          simp [isGood, hne] at hr
        subst hs
        simpa [readBufferStep, readBufferOne] using hrest

theorem closeLoop_env_subset (env : List ReadRes) (st : S) :
    ∀ r ∈ (closeLoop env st).1, r ∈ env := by
  induction env generalizing st with
  | nil => intro r hr; simp [closeLoop] at hr
  | cons a rest ih =>
    intro r hr
    cases hm : (readBufferOne a st).1 with
    | none =>
        simp only [closeLoop, hm] at hr
        exact List.mem_cons_of_mem a hr
    | some p =>
        simp only [closeLoop, hm] at hr
        exact List.mem_cons_of_mem a (ih (readBufferOne a st).2 r hr)

theorem closeLoop_trace (env : List ReadRes) (st : S) :
    ∃ k, 1 ≤ k ∧
      (closeLoop env st).2.trace = st.trace ++ List.replicate k Event.read := by
  induction env generalizing st with
  | nil =>
      exact ⟨1, le_refl 1, by simpa [closeLoop] using readBufferOne_trace ReadRes.raised st⟩
  | cons a rest ih =>
    cases hm : (readBufferOne a st).1 with
    | none =>
        refine ⟨1, le_refl 1, ?_⟩
        simpa [closeLoop, hm] using readBufferOne_trace a st
    | some p =>
        obtain ⟨k, -, hk⟩ := ih (readBufferOne a st).2
        refine ⟨k + 1, by omega, ?_⟩
        simp only [closeLoop, hm, hk, readBufferOne_trace a st]
        simp [List.replicate_succ, List.append_assoc]

theorem closeLoop_data_extend (env : List ReadRes) (st : S) :
    ∃ l, (closeLoop env st).2.data = st.data ++ l := by
  induction env generalizing st with
  | nil =>
      simpa [closeLoop] using readBufferOne_data_extend ReadRes.raised st
  | cons a rest ih =>
    cases hm : (readBufferOne a st).1 with
    | none =>
        simpa [closeLoop, hm] using readBufferOne_data_extend a st
    | some p =>
        obtain ⟨l1, hl1⟩ := readBufferOne_data_extend a st
        obtain ⟨l2, hl2⟩ := ih (readBufferOne a st).2
        exact ⟨l1 ++ l2, by simp [closeLoop, hm, hl2, hl1, List.append_assoc]⟩

theorem countP_replicate_read (p : Event → Bool) (hp : p Event.read = false) (k : Nat) :
    (List.replicate k Event.read).countP p = 0 := by
  induction k with
  | zero => simp
  | succ n ih => simp [List.replicate_succ, List.countP_cons, hp, ih]

/-- A reconnect cycle adds exactly one open and one close event (besides
reads and sleeps), keeps only suffix elements of the stream, and can only
extend the data buffer. -/
theorem resetDevice_facts (env : List ReadRes) (st : S) :
    openCount (resetDevice env st).2.trace = openCount st.trace + 1 ∧
    closeCount (resetDevice env st).2.trace = closeCount st.trace + 1 ∧
    (∀ r ∈ (resetDevice env st).1, r ∈ env) ∧
    (∃ l, (resetDevice env st).2.data = st.data ++ l) := by
  obtain ⟨k, -, hk⟩ := closeLoop_trace env st
  obtain ⟨l, hl⟩ := closeLoop_data_extend env st
  refine ⟨?_, ?_, ?_, ⟨l, ?_⟩⟩
  · simp [resetDevice, closeConnection, openCount, hk, List.countP_append,
      countP_replicate_read isOpenEvent rfl, List.countP_cons, isOpenEvent]
  · simp [resetDevice, closeConnection, closeCount, hk, List.countP_append,
      countP_replicate_read isCloseEvent rfl, List.countP_cons, isCloseEvent]
  · intro r hr
    exact closeLoop_env_subset env st r hr
  · simp [resetDevice, closeConnection, hl]

/-- When the reconnect's drain loop meets a stopping read at once, the
reconnect consumes exactly that one element of the stream. -/
theorem resetDevice_stop (c : ReadRes) (E : List ReadRes) (st : S)
    (hc : isStop c = true) :
    (resetDevice (c :: E) st).1 = E ∧
    openCount (resetDevice (c :: E) st).2.trace = openCount st.trace + 1 ∧
    closeCount (resetDevice (c :: E) st).2.trace = closeCount st.trace + 1 ∧
    (resetDevice (c :: E) st).2.data = st.data := by
  cases c with
  | raised =>
      refine ⟨?_, ?_, ?_, ?_⟩ <;>
        simp [resetDevice, closeConnection, closeLoop, readBufferOne,
          openCount, closeCount, List.countP_append, List.countP_cons,
          isOpenEvent, isCloseEvent]
  | got p =>
    cases p with
    | undecodable => simp [isStop] at hc
    | text s =>
      have hs : s = "" := by
        by_contra hne
        simp [isStop, hne] at hc
      subst hs
      refine ⟨?_, ?_, ?_, ?_⟩ <;>
        simp [resetDevice, closeConnection, closeLoop, readBufferOne,
          openCount, closeCount, List.countP_append, List.countP_cons,
          isOpenEvent, isCloseEvent]

theorem openCount_nil : openCount [] = 0 := rfl

theorem closeCount_nil : closeCount [] = 0 := rfl

theorem openCount_append (t1 t2 : List Event) :
    openCount (t1 ++ t2) = openCount t1 + openCount t2 := by
  simp [openCount, List.countP_append]

theorem closeCount_append (t1 t2 : List Event) :
    closeCount (t1 ++ t2) = closeCount t1 + closeCount t2 := by
  simp [closeCount, List.countP_append]

theorem openCount_cons (e : Event) (tr : List Event) :
    openCount (e :: tr) = openCount tr + (if isOpenEvent e then 1 else 0) := by
  simp [openCount, List.countP_cons]

theorem closeCount_cons (e : Event) (tr : List Event) :
    closeCount (e :: tr) = closeCount tr + (if isCloseEvent e then 1 else 0) := by
  simp [closeCount, List.countP_cons]

theorem resetDevice_openCount (env : List ReadRes) (st : S) :
    openCount (resetDevice env st).2.trace = openCount st.trace + 1 :=
  (resetDevice_facts env st).1

theorem resetDevice_closeCount (env : List ReadRes) (st : S) :
    closeCount (resetDevice env st).2.trace = closeCount st.trace + 1 :=
  (resetDevice_facts env st).2.1

theorem resetDevice_stop_env (c : ReadRes) (E : List ReadRes) (st : S)
    (hc : isStop c = true) : (resetDevice (c :: E) st).1 = E :=
  (resetDevice_stop c E st hc).1

theorem resetDevice_stop_open (c : ReadRes) (E : List ReadRes) (st : S)
    (hc : isStop c = true) :
    openCount (resetDevice (c :: E) st).2.trace = openCount st.trace + 1 :=
  (resetDevice_stop c E st hc).2.1

end SensorSSH

/-! ## The claims -/

namespace SensorSSH

/-- **C6.** `_return_collected` returns exactly the current buffer contents
in insertion order and leaves the buffer empty; hence a second drain with
no intervening append returns the empty list. -/
theorem claim_C6_drain_swap (st : S) :
    (returnCollected st).1 = st.data ∧
    (returnCollected st).2.data = [] ∧
    (returnCollected (returnCollected st).2).1 = [] :=
  ⟨rfl, rfl, rfl⟩

/-- **C8.** A read that succeeds but whose payload decodes to the empty
string is treated identically to a failed read: `send_and_receive` behaves
the same (same result, same stream consumption, same final state) whether
the next raw read returns empty bytes or raises. -/
theorem claim_C8_empty_is_failure (dbg : Bool) (cmd : String) (tries : Nat)
    (env : List ReadRes) (st : S) :
    sendAndReceive dbg cmd tries (ReadRes.got (Payload.text "") :: env) st
      = sendAndReceive dbg cmd tries (ReadRes.raised :: env) st := by
  rw [sendAndReceive.eq_def, sendAndReceive.eq_def]
  simp [readBufferStep, readBufferOne]

/-- **C9.** A successful read that decodes to non-empty text appends the
stripped line to the shared buffer even inside a single-shot
`send_and_receive` call, so the line `send_and_receive` returns is also
delivered by a later drain. -/
theorem claim_C9_buffer_double_delivery (dbg : Bool) (cmd : String)
    (tries : Nat) (t : String) (env : List ReadRes) (d : List String)
    (tr : List Event) (ht : t ≠ "") :
    (sendAndReceive dbg cmd tries (ReadRes.got (Payload.text t) :: env) ⟨d, tr⟩).1
      = Outcome.ret t ∧
    (sendAndReceive dbg cmd tries (ReadRes.got (Payload.text t) :: env) ⟨d, tr⟩).2.2.data
      = d ++ [pyStrip t] ∧
    (returnCollected
      (sendAndReceive dbg cmd tries (ReadRes.got (Payload.text t) :: env) ⟨d, tr⟩).2.2).1
      = d ++ [pyStrip t] := by
  rw [sendAndReceive.eq_def]
  simp [readBufferStep, readBufferOne, ht, returnCollected]

theorem claim_C9_witness :
    (sendAndReceive false "rx" 0 [ReadRes.got (Payload.text "20.39m\x0a")] ⟨[], []⟩).1
      = Outcome.ret "20.39m\x0a" ∧
    (sendAndReceive false "rx" 0 [ReadRes.got (Payload.text "20.39m\x0a")] ⟨[], []⟩).2.2.data
      = ["20.39m"] := by
  have h := claim_C9_buffer_double_delivery false "rx" 0 "20.39m\x0a" [] [] []
    (by decide)
  have e : pyStrip "20.39m\x0a" = "20.39m" := by decide
  exact ⟨h.1, by rw [h.2.1, e]; rfl⟩

/-- **C5, counterexample.** The string `send_and_receive` returns is the
raw decoded payload: for payload `"r\n"` the call returns `"r\n"`, which
is not whitespace-trimmed (and not newline-free). -/
theorem claim_C5_counterexample :
    (sendAndReceive false "rx" 0 [ReadRes.got (Payload.text "r\x0a")] ⟨[], []⟩).1
      = Outcome.ret "r\x0a" ∧
    pyStrip "r\x0a" ≠ "r\x0a" ∧ '\x0a' ∈ ("r\x0a").data := by
  refine ⟨by decide, by decide, by decide⟩

/-- **C5, amended.** Lines appended to the shared buffer are stripped at
the point of decode, but the value returned by `send_and_receive` is the
raw decoded payload, delivered untrimmed. -/
theorem claim_C5_amended :
    (∀ (r : ReadRes) (st : S),
        (readBufferOne r st).2.data = st.data ∨
        ∃ s, r = ReadRes.got (Payload.text s) ∧
          (readBufferOne r st).2.data = st.data ++ [pyStrip s]) ∧
    (∀ (dbg : Bool) (cmd : String) (tries : Nat) (t : String)
        (env : List ReadRes) (st : S), t ≠ "" →
        (sendAndReceive dbg cmd tries (ReadRes.got (Payload.text t) :: env) st).1
          = Outcome.ret t) := by
  constructor
  · intro r st
    cases r with
    | raised => exact Or.inl (by simp [readBufferOne])
    | got p =>
      cases p with
      | undecodable => exact Or.inl (by simp [readBufferOne])
      | text s =>
        by_cases hs : s = ""
        · exact Or.inl (by simp [readBufferOne, hs])
        · exact Or.inr ⟨s, rfl, by simp [readBufferOne, hs]⟩
  · intro dbg cmd tries t env st ht
    rw [sendAndReceive.eq_def]
    simp [readBufferStep, readBufferOne, ht]

theorem claim_C5_amended_witness :
    (sendAndReceive true "ux" 2 [ReadRes.got (Payload.text "u\x0a")] ⟨[], []⟩).1
      = Outcome.ret "u\x0a" :=
  claim_C5_amended.2 true "ux" 2 "u\x0a" [] ⟨[], []⟩ (by decide)

/-- **C7, counterexample.** Teardown reads are not discarded from the
session's shared buffer: draining a pending non-empty frame during
`_close_connection` appends its stripped line to `self.data`. -/
theorem claim_C7_counterexample :
    (closeConnection [ReadRes.got (Payload.text "XYZ\x0a"), ReadRes.raised]
        ⟨[], []⟩).2.data = ["XYZ"] ∧
    (["XYZ"] : List String) ≠ [] := by
  refine ⟨by decide, by decide⟩

/-- **C7, amended.** `_close_connection` performs one or more reads
(stopping at the first read returning no data), then closes the handle
exactly once; the locally accumulated `request` string is discarded, but a
non-empty decodable read during the drain appends to the shared buffer,
which is extended (not necessarily unchanged). -/
theorem claim_C7_amended (env : List ReadRes) (st : S) :
    (∃ k, 1 ≤ k ∧
      (closeConnection env st).2.trace
        = st.trace ++ List.replicate k Event.read ++ [Event.close]) ∧
    closeCount (closeConnection env st).2.trace = closeCount st.trace + 1 ∧
    ∃ l, (closeConnection env st).2.data = st.data ++ l := by
  obtain ⟨k, hk1, hk⟩ := closeLoop_trace env st
  obtain ⟨l, hl⟩ := closeLoop_data_extend env st
  refine ⟨⟨k, hk1, by simp [closeConnection, hk]⟩, ?_, ⟨l, by simp [closeConnection, hl]⟩⟩
  simp [closeConnection, closeCount, hk, List.countP_append,
    countP_replicate_read isCloseEvent rfl, List.countP_cons, isCloseEvent]

/-- **C2.** When every read the transport can deliver fails (raises, is
undecodable, or decodes to the empty string), `send_and_receive` with
budget `tries` returns `""` when the debug flag is unset and raises when it
is set, having performed exactly `tries` reconnect cycles (one close and
one reopen each). -/
theorem claim_C2_retries_exhausted (dbg : Bool) (cmd : String) (tries : Nat)
    (env : List ReadRes) (st : S) (h : ∀ r ∈ env, isGood r = false) :
    (sendAndReceive dbg cmd tries env st).1
      = (if dbg then Outcome.exn else Outcome.ret "") ∧
    openCount (sendAndReceive dbg cmd tries env st).2.2.trace
      = openCount st.trace + tries ∧
    closeCount (sendAndReceive dbg cmd tries env st).2.2.trace
      = closeCount st.trace + tries := by
  induction tries generalizing env st with
  | zero =>
      rw [sendAndReceive.eq_def]
      cases env with
      | nil =>
          cases dbg <;>
            simp [readBufferStep, readBufferOne, openCount_append, openCount_cons,
              openCount_nil, closeCount_append, closeCount_cons, closeCount_nil,
              isOpenEvent, isCloseEvent]
      | cons r rest =>
          have hr : isGood r = false := h r (List.mem_cons_self r rest)
          cases r with
          | raised =>
              cases dbg <;>
                simp [readBufferStep, readBufferOne, openCount_append, openCount_cons,
                  openCount_nil, closeCount_append, closeCount_cons, closeCount_nil,
                  isOpenEvent, isCloseEvent]
          | got p =>
              cases p with
              | undecodable =>
                  cases dbg <;>
                    simp [readBufferStep, readBufferOne, openCount_append, openCount_cons,
                      openCount_nil, closeCount_append, closeCount_cons, closeCount_nil,
                      isOpenEvent, isCloseEvent]
              | text s =>
                  have hs : s = "" := by
                    by_contra hne
                    simp [isGood, hne] at hr
                  subst hs
                  cases dbg <;>
                    simp [readBufferStep, readBufferOne, openCount_append, openCount_cons,
                      openCount_nil, closeCount_append, closeCount_cons, closeCount_nil,
                      isOpenEvent, isCloseEvent]
  | succ n ih =>
      have key : ∀ (E2 : List ReadRes) (st2 : S),
          (∀ x ∈ E2, isGood x = false) →
          openCount st2.trace = openCount st.trace + 1 →
          closeCount st2.trace = closeCount st.trace + 1 →
          (sendAndReceive dbg cmd n E2 st2).1
            = (if dbg then Outcome.exn else Outcome.ret "") ∧
          openCount (sendAndReceive dbg cmd n E2 st2).2.2.trace
            = openCount st.trace + (n + 1) ∧
          closeCount (sendAndReceive dbg cmd n E2 st2).2.2.trace
            = closeCount st.trace + (n + 1) := by
        intro E2 st2 hE2 hoc hcc
        obtain ⟨g1, g2, g3⟩ := ih E2 st2 hE2
        refine ⟨g1, ?_, ?_⟩
        · rw [g2, hoc]; omega
        · rw [g3, hcc]; omega
      rw [sendAndReceive.eq_def]
      cases env with
      | nil =>
          simp only [readBufferStep, readBufferOne]
          refine key _ _ ?_ ?_ ?_
          · intro x hx
            exact absurd ((resetDevice_facts _ _).2.2.1 x hx) (List.not_mem_nil x)
          · simp [openCount_append, openCount_cons, openCount_nil,
              resetDevice_openCount, isOpenEvent]
          · simp [closeCount_append, closeCount_cons, closeCount_nil,
              resetDevice_closeCount, isCloseEvent]
      | cons r rest =>
          have hrest : ∀ x ∈ rest, isGood x = false :=
            fun x hx => h x (List.mem_cons_of_mem r hx)
          have hr : isGood r = false := h r (List.mem_cons_self r rest)
          cases r with
          | raised =>
              simp only [readBufferStep, readBufferOne]
              refine key _ _ ?_ ?_ ?_
              · intro x hx
                exact hrest x ((resetDevice_facts _ _).2.2.1 x hx)
              · simp [openCount_append, openCount_cons, openCount_nil,
                  resetDevice_openCount, isOpenEvent]
              · simp [closeCount_append, closeCount_cons, closeCount_nil,
                  resetDevice_closeCount, isCloseEvent]
          | got p =>
            cases p with
            | undecodable =>
                simp only [readBufferStep, readBufferOne]
                refine key _ _ ?_ ?_ ?_
                · intro x hx
                  exact hrest x ((resetDevice_facts _ _).2.2.1 x hx)
                · simp [openCount_append, openCount_cons, openCount_nil,
                    resetDevice_openCount, isOpenEvent]
                · simp [closeCount_append, closeCount_cons, closeCount_nil,
                    resetDevice_closeCount, isCloseEvent]
            | text s =>
                have hs : s = "" := by
                  by_contra hne
                  simp [isGood, hne] at hr
                subst hs
                simp only [readBufferStep, readBufferOne, if_pos rfl]
                refine key _ _ ?_ ?_ ?_
                · intro x hx
                  exact hrest x ((resetDevice_facts _ _).2.2.1 x hx)
                · simp [openCount_append, openCount_cons, openCount_nil,
                    resetDevice_openCount, isOpenEvent]
                · simp [closeCount_append, closeCount_cons, closeCount_nil,
                    resetDevice_closeCount, isCloseEvent]

theorem claim_C2_witness :
    (sendAndReceive false "rx" 1 [ReadRes.raised, ReadRes.got Payload.undecodable]
        ⟨[], []⟩).1 = Outcome.ret "" ∧
    openCount (sendAndReceive false "rx" 1
        [ReadRes.raised, ReadRes.got Payload.undecodable] ⟨[], []⟩).2.2.trace = 1 ∧
    closeCount (sendAndReceive false "rx" 1
        [ReadRes.raised, ReadRes.got Payload.undecodable] ⟨[], []⟩).2.2.trace = 1 := by
  have h := claim_C2_retries_exhausted false "rx" 1
    [ReadRes.raised, ReadRes.got Payload.undecodable] ⟨[], []⟩ (by decide)
  exact ⟨by simpa using h.1, by simpa [openCount] using h.2.1,
    by simpa [closeCount] using h.2.2⟩

/-- **C3.** If the first `k = l.length ≤ tries` command reads fail (each
followed by the single stopping read its reconnect's drain consumes) and
the next read decodes to non-empty `t`, then `send_and_receive` performs
exactly `k` reconnects and returns `t`; in particular for `k = 0` it does
one send, one settle sleep and one read, with no retry. -/
theorem claim_C3_k_failures_then_success (dbg : Bool) (cmd : String)
    (tries : Nat) (l : List (ReadRes × ReadRes)) (t : String)
    (rest : List ReadRes) (st : S)
    (hl : ∀ p ∈ l, isGood p.1 = false ∧ isStop p.2 = true)
    (hk : l.length ≤ tries) (ht : t ≠ "") :
    (sendAndReceive dbg cmd tries
        (failEnv l ++ ReadRes.got (Payload.text t) :: rest) st).1
      = Outcome.ret t ∧
    openCount (sendAndReceive dbg cmd tries
        (failEnv l ++ ReadRes.got (Payload.text t) :: rest) st).2.2.trace
      = openCount st.trace + l.length ∧
    (l = [] → st.trace = [] →
      (sendAndReceive dbg cmd tries
          (failEnv l ++ ReadRes.got (Payload.text t) :: rest) st).2.2.trace
        = [Event.send cmd, Event.sleep Dur.long, Event.read]) := by
  induction l generalizing tries st with
  | nil =>
      rw [sendAndReceive.eq_def]
      refine ⟨?_, ?_, ?_⟩
      · simp [failEnv, readBufferStep, readBufferOne, ht]
      · simp [failEnv, readBufferStep, readBufferOne, ht,
          openCount_append, openCount_cons, openCount_nil, isOpenEvent]
      · intro _ htr0
        simp [failEnv, readBufferStep, readBufferOne, ht, htr0]
  | cons fc l' ih =>
      obtain ⟨f, c⟩ := fc
      have hf : isGood f = false := (hl (f, c) (List.mem_cons_self _ _)).1
      have hc : isStop c = true := (hl (f, c) (List.mem_cons_self _ _)).2
      have hl' : ∀ p ∈ l', isGood p.1 = false ∧ isStop p.2 = true :=
        fun p hp => hl p (List.mem_cons_of_mem _ hp)
      cases tries with
      | zero => exact absurd hk (by simp)
      | succ n =>
          have hk' : l'.length ≤ n := by
            simpa using hk
          have key : ∀ st2 : S,
              openCount st2.trace = openCount st.trace + 1 →
              (sendAndReceive dbg cmd n
                  (failEnv l' ++ ReadRes.got (Payload.text t) :: rest) st2).1
                = Outcome.ret t ∧
              openCount (sendAndReceive dbg cmd n
                  (failEnv l' ++ ReadRes.got (Payload.text t) :: rest) st2).2.2.trace
                = openCount st.trace + ((f, c) :: l').length := by
            intro st2 h2
            obtain ⟨g1, g2, -⟩ := ih n st2 hl' hk'
            refine ⟨g1, ?_⟩
            rw [g2, h2]
            simp
            omega
          have hfe : failEnv ((f, c) :: l') = f :: c :: failEnv l' := rfl
          rw [sendAndReceive.eq_def, hfe]
          refine ⟨?_, ?_, fun h0 _ => absurd h0 (by simp)⟩ <;>
          · cases f with
            | raised =>
                simp only [readBufferStep, readBufferOne, List.cons_append]
                rw [resetDevice_stop_env _ _ _ hc]
                first
                | exact (key _ (by
                    simp [resetDevice_stop_open, hc, openCount_append, openCount_cons,
                      openCount_nil, isOpenEvent])).1
                | exact (key _ (by
                    simp [resetDevice_stop_open, hc, openCount_append, openCount_cons,
                      openCount_nil, isOpenEvent])).2
            | got p =>
              cases p with
              | undecodable =>
                  simp only [readBufferStep, readBufferOne, List.cons_append]
                  rw [resetDevice_stop_env _ _ _ hc]
                  first
                  | exact (key _ (by
                      simp [resetDevice_stop_open, hc, openCount_append, openCount_cons,
                        openCount_nil, isOpenEvent])).1
                  | exact (key _ (by
                      simp [resetDevice_stop_open, hc, openCount_append, openCount_cons,
                        openCount_nil, isOpenEvent])).2
              | text s =>
                  have hs : s = "" := by
                    by_contra hne
                    simp [isGood, hne] at hf
                  subst hs
                  simp only [readBufferStep, readBufferOne, if_pos rfl, List.cons_append]
                  rw [resetDevice_stop_env _ _ _ hc]
                  first
                  | exact (key _ (by
                      simp [resetDevice_stop_open, hc, openCount_append, openCount_cons,
                        openCount_nil, isOpenEvent])).1
                  | exact (key _ (by
                      simp [resetDevice_stop_open, hc, openCount_append, openCount_cons,
                        openCount_nil, isOpenEvent])).2

theorem claim_C3_witness :
    (sendAndReceive false "gx" 2
        (failEnv [(ReadRes.raised, ReadRes.raised)]
          ++ ReadRes.got (Payload.text "20.00m") :: []) ⟨[], []⟩).1
      = Outcome.ret "20.00m" ∧
    openCount (sendAndReceive false "gx" 2
        (failEnv [(ReadRes.raised, ReadRes.raised)]
          ++ ReadRes.got (Payload.text "20.00m") :: []) ⟨[], []⟩).2.2.trace = 1 := by
  have h := claim_C3_k_failures_then_success false "gx" 2
    [(ReadRes.raised, ReadRes.raised)] "20.00m" [] ⟨[], []⟩
    (by decide) (by decide) (by decide)
  exact ⟨h.1, by simpa [openCount] using h.2.1⟩

/-- **C10.** The `SQMLU.send_and_receive` override is extensionally equal
to the inherited `SQM.send_and_receive`: for every debug flag, command,
retry budget, transport-read oracle and session state, the two return the
same value, raise under the same conditions, and leave the same stream
remainder and state (hence the same send/sleep/read/close/reopen trace). -/
theorem claim_C10_override_extensionally_equal (dbg : Bool) (cmd : String)
    (tries : Nat) (env : List ReadRes) (st : S) :
    sendAndReceiveLU dbg cmd tries env st = sendAndReceive dbg cmd tries env st := by
  induction tries generalizing env st with
  | zero =>
      rw [sendAndReceiveLU.eq_def, sendAndReceive.eq_def]
  | succ n ih =>
      rw [sendAndReceiveLU.eq_def, sendAndReceive.eq_def]
      cases hm : (readBufferStep env
          { st with trace := st.trace ++ [Event.send cmd, Event.sleep Dur.long] }).1 with
      | none =>
          simp only [hm]
          exact ih _ _
      | some p =>
          cases p with
          | undecodable =>
              simp only [hm]
              exact ih _ _
          | text t => simp only [hm]

/-- **C1, counterexample.** A run receiving exactly one reply datagram
whose marker test fails (offset-3 character `'a'`, not the marker) and
then timing out: the claim requires the reply to be rejected and the
search to fail with device-not-found, but `_search` returns that reply's
source address. -/
theorem claim_C1_counterexample :
    searchLE
        [RecvOutcome.datagram (Datagram.decoded ['a', 'b', 'c', 'd']) "10.0.0.5" false,
          RecvOutcome.noData true] none
      = Except.ok "10.0.0.5" ∧
    (Except.ok "10.0.0.5" : Except Unit String) ≠ Except.error () :=
  ⟨rfl, fun h => Except.noConfusion h⟩

/-- **C1, amended.** The marker comparison `buf.decode(hex)[3] == "f7"`
(one character against a two-character string) can never succeed, and it
only gates a diagnostic print: every received datagram updates the
candidate address regardless of content, the loop runs until the window
elapses, and the search returns the source of the *last* datagram
received — raising only when no datagram at all was received and no prior
candidate existed. -/
theorem claim_C1_amended :
    (∀ buf : Datagram, markerCheck buf ≠ some true) ∧
    (∀ (ds : List (Datagram × String)) (a : Option String),
        searchLE
            (ds.map (fun p => RecvOutcome.datagram p.1 p.2 false)
              ++ [RecvOutcome.noData true]) a
          = finishSearch (lastSrc ds a)) := by
  constructor
  · intro buf h
    cases buf with
    | undecodable => simp [markerCheck] at h
    | decoded cs =>
        simp only [markerCheck] at h
        split at h
        · simp only [Option.some.injEq] at h
          have heq := of_decide_eq_true h
          have e : ("f7" : String) = String.mk ['f', '7'] := rfl
          rw [e] at heq
          injection heq with hlist
          simp at hlist
        · exact Option.noConfusion h
  · intro ds
    induction ds with
    | nil => intro a; simp [searchLE, lastSrc]
    | cons q rest ih =>
        intro a
        obtain ⟨b, s⟩ := q
        cases hm : markerCheck b with
        | none => simp [searchLE, hm, lastSrc, ih (some s)]
        | some v => simp [searchLE, hm, lastSrc, ih (some s)]

/-- **C4, counterexample.** A candidate port that fails to open is *not*
skipped: the `serial.Serial` call is unguarded, so the exception aborts
the whole scan even though a later port would have answered with the
marker. -/
theorem claim_C4_counterexample :
    scanPorts [("/dev/ttyUSB0", ProbeResult.openErr),
      ("/dev/ttyUSB1", ProbeResult.reply (Payload.text "iXYZ"))]
      = LUResult.crashed ∧
    LUResult.crashed ≠ LUResult.found "/dev/ttyUSB1" :=
  ⟨rfl, by decide⟩

/-- **C4, amended.** A port whose response's first character mismatches
the marker `'i'` is skipped and scanning continues; the first port whose
response starts with `'i'` is returned, independently of the remaining
candidates (no later port is opened); exhausting the candidate list raises
device-not-found; but a port that fails to open makes the unguarded open
call raise and abort the scan. -/
theorem claim_C4_amended :
    (∀ (port : String) (c : Char) (cs : List Char)
        (rest : List (String × ProbeResult)), c ≠ 'i' →
        scanPorts ((port, ProbeResult.reply (Payload.text (String.mk (c :: cs)))) :: rest)
          = scanPorts rest) ∧
    (∀ (port : String) (cs : List Char) (rest : List (String × ProbeResult)),
        scanPorts ((port, ProbeResult.reply (Payload.text (String.mk ('i' :: cs)))) :: rest)
          = LUResult.found port) ∧
    (∀ (port : String) (rest : List (String × ProbeResult)),
        scanPorts ((port, ProbeResult.openErr) :: rest) = LUResult.crashed) ∧
    scanPorts [] = LUResult.notFound := by
  refine ⟨?_, ?_, ?_, rfl⟩
  · intro port c cs rest hc
    simp [scanPorts, hc]
  · intro port cs rest
    simp [scanPorts]
  · intro port rest
    simp [scanPorts]

theorem claim_C4_amended_witness :
    scanPorts [("COM6", ProbeResult.reply (Payload.text "xq")),
      ("COM7", ProbeResult.reply (Payload.text "iXYZ"))] = LUResult.found "COM7" := by
  have h1 := claim_C4_amended.1 "COM6" 'x' ['q']
    [("COM7", ProbeResult.reply (Payload.text "iXYZ"))] (by decide)
  have h2 := claim_C4_amended.2.1 "COM7" ['X', 'Y', 'Z'] []
  exact h1.trans h2

end SensorSSH
